import Mathlib

/-!
Verification of the phased-array far-field directivity engine
(`phased_array.py`), the range normalizer (`plotting.py`), and the beam-scan
sweep loop (`gui_plotter_animate.py`).

Modelling conventions:
* Machine floats are modelled as exact rationals (`ℚ`).
* NumPy's transcendental kernels (`cos`, `sin`, `tan`, `arccos`, `arctan2`,
  and the unit complex exponential `t ↦ exp(i·t)`) have no computable
  counterpart over `ℚ`; they are abstracted as parameters collected in a
  context structure `Ctx`, together with a rational stand-in for π.  Every
  theorem below is proved for an arbitrary context, hence in particular for
  the real-valued interpretation.
* Complex numbers are exact pairs of rationals with the genuine complex
  ring operations (`Cplx`).
* Python exceptions are modelled with `Except`/error flags; the abstract
  error taxonomy of the specification (`ShapeError`, `StateError`,
  `ValueError`) is the inductive `Err`.
-/

/-- A complex number with exact rational real and imaginary parts. -/
structure Cplx where
  re : ℚ
  im : ℚ
deriving DecidableEq, Repr

/-- Complex zero. -/
def c0 : Cplx := ⟨0, 0⟩

/-- Complex addition. -/
def cadd (a b : Cplx) : Cplx := ⟨a.re + b.re, a.im + b.im⟩

/-- Complex multiplication. -/
def cmul (a b : Cplx) : Cplx :=
  ⟨a.re * b.re - a.im * b.im, a.re * b.im + a.im * b.re⟩

/-- Complex conjugation (NumPy `conj`). -/
def cconj (a : Cplx) : Cplx := ⟨a.re, -a.im⟩

/-- Sum of a list of complex numbers. -/
def csum (l : List Cplx) : Cplx := l.foldr cadd c0

/-- The transcendental kernels used by the source, abstracted over `ℚ`:
`cexp t` stands for the unit complex exponential `exp(i·t)`, and `pi` is a
rational stand-in for π.  The engine's algebra is proved for an arbitrary
interpretation of these kernels. -/
structure Ctx where
  pi : ℚ
  cos : ℚ → ℚ
  sin : ℚ → ℚ
  tan : ℚ → ℚ
  arccos : ℚ → ℚ
  arctan2 : ℚ → ℚ → ℚ
  cexp : ℚ → Cplx

/-- Dot product of two rational vectors (NumPy `@` on 1-D operands). -/
def dot (u v : List ℚ) : ℚ := (List.zipWith (fun a b => a * b) u v).sum

/-- `azel_to_thetaphi(az, el)` from `phased_array.py`: convert
(azimuth, elevation) to spherical angles via
`theta = arccos(cos(el)·cos(az))`, `phi = arctan2(tan(el), sin(az))`
(scalar instance of the elementwise NumPy code). -/
def azel_to_thetaphi (c : Ctx) (az el : ℚ) : ℚ × ℚ :=
  (c.arccos (c.cos el * c.cos az), c.arctan2 (c.tan el) (c.sin az))

/-- `thetaphi_to_dir(angs)` from `phased_array.py`: convert a sequence of
(θ, φ) pairs to Cartesian vectors
`(cos φ · sin θ, sin φ · sin θ, cos θ)`, row by row. -/
def thetaphi_to_dir (c : Ctx) (angs : List (ℚ × ℚ)) : List (List ℚ) :=
  angs.map (fun a => [c.cos a.2 * c.sin a.1, c.sin a.2 * c.sin a.1, c.cos a.1])

/-- The abstract error taxonomy of the specification. -/
inductive Err where
  | shapeError
  | stateError
  | valueError
deriving DecidableEq, Repr

/-- The mutable state of a `PhasedArray3D` instance.  `__init__` sets
`pos_sensor` and `wavelength` to `None`; the remaining attributes do not
exist until first assigned, modelled uniformly as `Option` fields that
start out `none`. -/
structure Engine where
  pos_sensor : Option (List (List ℚ))
  wavelength : Option ℚ
  n_sensor : Option ℕ
  dir_grid : Option (List (List ℚ))
  steer_vecs : Option (List (List Cplx))
  dir_ref : Option (List ℚ)
  src : Option (List Cplx)
  pattern_tx : Option (List Cplx)
deriving DecidableEq, Repr

deriving instance DecidableEq for Except

/-- `PhasedArray3D.__init__`: fresh engine, nothing established. -/
def Engine.init : Engine :=
  ⟨none, none, none, none, none, none, none, none⟩

/-- `create_geom(pos)` from `phased_array.py`.  Mirrors the statement order
of the source: `self.pos_sensor = np.array(pos)` first, then the shape
assertion `pos.shape[1] == 3` (each row must have exactly 3 components),
then `self.n_sensor = pos.shape[0]`.  The returned flag is `some
Err.shapeError` when the assertion fires; the first component is the engine
state after the call, including the mutation that precedes the check. -/
def create_geom (s : Engine) (pos : List (List ℚ)) : Engine × Option Err :=
  let s1 : Engine := { s with pos_sensor := some pos }
  if pos.all (fun r => r.length = 3) then
    ({ s1 with n_sensor := some pos.length }, none)
  else
    (s1, some Err.shapeError)

/-- `create_sphere_mesh_uv(nb_theta, nb_phi)` from `phased_array.py`.  The
sphere tessellation comes from the external pyqtgraph `MeshData` helper
(outside this repository); its vertex array is taken as an input.  The
face/triangle topology and the sample counts are consumed only by the
excluded rendering collaborator and are not modelled.  The engine keeps the
vertices as its direction grid (`self.dir_grid = self.verts`). -/
def create_sphere_mesh_uv (s : Engine) (verts : List (List ℚ)) : Engine :=
  { s with dir_grid := some verts }

/-- The reference direction of `directivity_pattern_tx`:
`thetaphi_to_dir(np.array((theta_ref, phi_ref))[None, :]).ravel()`. -/
def ref_dir (c : Ctx) (th ph : ℚ) : List ℚ :=
  (thetaphi_to_dir c [(th, ph)]).flatten

/-- The steering-vector matrix
`np.exp(-2j*np.pi/wavelength * self.pos_sensor @ self.dir_grid.T)`:
entry (n, m) is `exp(-2πi/λ · pos_n · dir_m)`. -/
def steerMatrix (c : Ctx) (lam : ℚ) (P G : List (List ℚ)) :
    List (List Cplx) :=
  P.map (fun p => G.map (fun d => c.cexp (-(2 * c.pi / lam) * dot p d)))

/-- The excitation vector
`np.exp(-2j*np.pi/wavelength * self.pos_sensor @ self.dir_ref)`:
entry n is `exp(-2πi/λ · pos_n · ref)`. -/
def srcVec (c : Ctx) (lam : ℚ) (P : List (List ℚ)) (r : List ℚ) :
    List Cplx :=
  P.map (fun p => c.cexp (-(2 * c.pi / lam) * dot p r))

/-- `self.steer_vecs.T.conj() @ self.src`: the conjugate-transposed
matrix-vector product.  The output length is the column count of the
matrix (NumPy takes it from the matrix shape; here from the first row). -/
def conjT_mv (SV : List (List Cplx)) (v : List Cplx) : List Cplx :=
  (List.range (SV.headD []).length).map (fun m =>
    csum ((SV.zip v).map (fun rz => cmul (cconj (rz.1.getD m c0)) rz.2)))

/-- `directivity_pattern_tx(wavelength, theta_ref, phi_ref)` from
`phased_array.py`.  Mirrors the source: compute and store the reference
direction; rebuild the steering-vector matrix and record the wavelength
only when `self.wavelength != wavelength`; compute the excitation vector
and the pattern from the *stored* steering matrix.  A `None`/absent
attribute hit by the NumPy expressions raises in Python; those failure
points return `Err.stateError`. -/
def directivity_pattern_tx (c : Ctx) (s : Engine) (lam th ph : ℚ) :
    Except Err (Engine × List Cplx) :=
  let dr := ref_dir c th ph
  let s0 : Engine := { s with dir_ref := some dr }
  let step : Except Err Engine :=
    if s0.wavelength ≠ some lam then
      match s0.pos_sensor, s0.dir_grid with
      | some P, some G =>
          .ok { s0 with steer_vecs := some (steerMatrix c lam P G),
                        wavelength := some lam }
      | _, _ => .error Err.stateError
    else .ok s0
  match step with
  | .error e => .error e
  | .ok s1 =>
    match s1.pos_sensor, s1.steer_vecs with
    | some P, some SV =>
        let sv := srcVec c lam P dr
        let pat := conjT_mv SV sv
        .ok ({ s1 with src := some sv, pattern_tx := some pat }, pat)
    | _, _ => .error Err.stateError

/-- `scale_to_01(v, v_min, v_max, clipping=True)` from `plotting.py`
(scalar instance of the elementwise NumPy code):
`(v - v_min) / (v_max - v_min)`, clamped to [0, 1] when clipping is on.
The source computes unconditionally — it never raises; the `Except`
codomain records that no exception path exists (on a degenerate range
NumPy silently produces non-finite values rather than an error). -/
def scale_to_01 (v v_min v_max : ℚ) (clipping : Bool) : Except Err ℚ :=
  let v_out := (v - v_min) / (v_max - v_min)
  .ok (if clipping then min 1 (max 0 v_out) else v_out)

/-- The pattern produced by one engine call in terms of the inputs only:
conjugate-transposed steering matrix times excitation vector. -/
def patternOf (c : Ctx) (lam : ℚ) (P G : List (List ℚ)) (r : List ℚ) :
    List Cplx :=
  conjT_mv (steerMatrix c lam P G) (srcVec c lam P r)

/-- Run a list of `directivity_pattern_tx` commands `(wavelength, θ, φ)` in
order, counting how many calls take the rebuild branch — i.e. how many
calls find `self.wavelength != wavelength` on entry, which is exactly the
condition under which the source recomputes the steering matrix. -/
def runCount (c : Ctx) : Engine → List (ℚ × ℚ × ℚ) → ℕ →
    Except Err (Engine × ℕ)
  | s, [], k => .ok (s, k)
  | s, cmd :: rest, k =>
    match directivity_pattern_tx c s cmd.1 cmd.2.1 cmd.2.2 with
    | .error e => .error e
    | .ok (s', _) =>
        runCount c s' rest (if s.wavelength ≠ some cmd.1 then k + 1 else k)

/-- One collected entry of the beam-scan loop of `gui_plotter_animate.py`:
the pattern returned by the call paired with the engine's excitation
vector `self.src` read back after the call.  (The script additionally
dB-normalizes the pattern for display; the collected engine outputs are
the pattern and the excitation vector.) -/
def scanEntry (s : Engine) (pat : List Cplx) : List Cplx × List Cplx :=
  (pat, s.src.getD [])

/-- The inner (azimuth) loop of the beam-scan sweep: for each azimuth in
order, convert `(az, el)` via `azel_to_thetaphi`, call the engine, and
append the collected entry. -/
def scan_inner (c : Ctx) (lam el : ℚ) :
    Engine → List ℚ → Except Err (Engine × List (List Cplx × List Cplx))
  | s, [] => .ok (s, [])
  | s, az :: rest =>
    let angs := azel_to_thetaphi c az el
    match directivity_pattern_tx c s lam angs.1 angs.2 with
    | .error e => .error e
    | .ok (s1, pat) =>
      match scan_inner c lam el s1 rest with
      | .error e => .error e
      | .ok (s2, entries) => .ok (s2, scanEntry s1 pat :: entries)

/-- The outer (elevation) loop of the beam-scan sweep of
`gui_plotter_animate.py`: elevation outer, azimuth inner, results appended
in iteration order. -/
def run_scan (c : Ctx) (lam : ℚ) (az_grid : List ℚ) :
    Engine → List ℚ → Except Err (Engine × List (List Cplx × List Cplx))
  | s, [] => .ok (s, [])
  | s, el :: rest =>
    match scan_inner c lam el s az_grid with
    | .error e => .error e
    | .ok (s1, entries) =>
      match run_scan c lam az_grid s1 rest with
      | .error e => .error e
      | .ok (s2, entries') => .ok (s2, entries ++ entries')

/-- The row-major command list of the sweep: elevation outer, azimuth
inner. -/
def scanCommands (el_grid az_grid : List ℚ) : List (ℚ × ℚ) :=
  el_grid.flatMap (fun el => az_grid.map (fun az => (el, az)))

/-- A concrete interpretation of the transcendental kernels, used by the
closed witnesses and counterexamples below (any interpretation does). -/
def ctx1 : Ctx :=
  ⟨1, fun x => x, fun x => x, fun x => x, fun x => x, fun x y => x + y,
   fun t => ⟨t, 1⟩⟩

/-- A concrete one-sensor geometry. -/
def P1 : List (List ℚ) := [[0, 0, 0]]

/-- A second concrete one-sensor geometry, distinct from `P1`. -/
def P2 : List (List ℚ) := [[1, 0, 0]]

/-- A concrete one-sample direction grid. -/
def G1 : List (List ℚ) := [[1, 0, 0]]

/-- A concrete engine with geometry `P1` and direction grid `G1`
established and no cache yet. -/
def eng1 : Engine := create_sphere_mesh_uv (create_geom Engine.init P1).1 G1

/-- The (pattern, excitation) pair produced by one sweep command. -/
def entryOf (c : Ctx) (lam : ℚ) (P G : List (List ℚ)) (el az : ℚ) :
    List Cplx × List Cplx :=
  let angs := azel_to_thetaphi c az el
  let rd := ref_dir c angs.1 angs.2
  (patternOf c lam P G rd, srcVec c lam P rd)

lemma getD_map_of_lt (f : α → β) (l : List α) (m : ℕ) (d : α) (e : β)
    (h : m < l.length) : (l.map f).getD m e = f (l.getD m d) := by
  rw [List.getD_eq_getElem _ _ (by simpa using h), List.getD_eq_getElem _ _ h]
  simp

lemma getD_range_map (h : ℕ → α) (n m : ℕ) (d : α) (hm : m < n) :
    ((List.range n).map h).getD m d = h m := by
  rw [getD_map_of_lt h _ m 0 d (by simpa using hm)]
  congr 1
  rw [List.getD_eq_getElem _ _ (by simpa using hm)]
  exact List.getElem_range _ _

lemma patternOf_length (c : Ctx) (lam : ℚ) (P G : List (List ℚ))
    (r : List ℚ) (hP : P ≠ []) : (patternOf c lam P G r).length = G.length := by
  cases P with
  | nil => exact absurd rfl hP
  | cons p P' => simp [patternOf, conjT_mv, steerMatrix]

lemma patternOf_getD (c : Ctx) (lam : ℚ) (P G : List (List ℚ)) (r : List ℚ)
    (m : ℕ) (hP : P ≠ []) (hm : m < G.length) :
    (patternOf c lam P G r).getD m c0 =
      csum (P.map (fun p =>
        cmul (cconj (c.cexp (-(2 * c.pi / lam) * dot p (G.getD m []))))
             (c.cexp (-(2 * c.pi / lam) * dot p r)))) := by
  obtain ⟨p0, P', rfl⟩ : ∃ p0 P', P = p0 :: P' := by
    cases P with
    | nil => exact absurd rfl hP
    | cons a b => exact ⟨a, b, rfl⟩
  unfold patternOf conjT_mv steerMatrix srcVec
  rw [List.zip_map']
  rw [show ((((p0 :: P').map fun p =>
      G.map fun d => c.cexp (-(2 * c.pi / lam) * dot p d)).headD []).length)
      = G.length by simp]
  rw [getD_range_map _ _ _ _ hm, List.map_map]
  congr 1
  apply List.map_congr_left
  intro p _
  simp only [Function.comp]
  congr 2
  rw [getD_map_of_lt _ _ _ [] _ hm]

lemma dp_hit (c : Ctx) (s : Engine) (lam th ph : ℚ) (P : List (List ℚ))
    (SV : List (List Cplx)) (hw : s.wavelength = some lam)
    (hP : s.pos_sensor = some P) (hS : s.steer_vecs = some SV) :
    directivity_pattern_tx c s lam th ph =
      .ok ({ s with dir_ref := some (ref_dir c th ph),
                    src := some (srcVec c lam P (ref_dir c th ph)),
                    pattern_tx :=
                      some (conjT_mv SV (srcVec c lam P (ref_dir c th ph))) },
           conjT_mv SV (srcVec c lam P (ref_dir c th ph))) := by
  simp [directivity_pattern_tx, hw, hP, hS]

lemma dp_miss (c : Ctx) (s : Engine) (lam th ph : ℚ) (P G : List (List ℚ))
    (hw : s.wavelength ≠ some lam) (hP : s.pos_sensor = some P)
    (hG : s.dir_grid = some G) :
    directivity_pattern_tx c s lam th ph =
      .ok ({ s with dir_ref := some (ref_dir c th ph),
                    steer_vecs := some (steerMatrix c lam P G),
                    wavelength := some lam,
                    src := some (srcVec c lam P (ref_dir c th ph)),
                    pattern_tx := some (patternOf c lam P G (ref_dir c th ph)) },
           patternOf c lam P G (ref_dir c th ph)) := by
  simp [directivity_pattern_tx, hw, hP, hG, patternOf]

lemma dp_ok (c : Ctx) (s : Engine) (lam th ph : ℚ) (P G : List (List ℚ))
    (hP : s.pos_sensor = some P) (hG : s.dir_grid = some G)
    (hcoh : s.wavelength = some lam →
      s.steer_vecs = some (steerMatrix c lam P G)) :
    directivity_pattern_tx c s lam th ph =
      .ok ({ s with dir_ref := some (ref_dir c th ph),
                    steer_vecs := some (steerMatrix c lam P G),
                    wavelength := some lam,
                    src := some (srcVec c lam P (ref_dir c th ph)),
                    pattern_tx := some (patternOf c lam P G (ref_dir c th ph)) },
           patternOf c lam P G (ref_dir c th ph)) := by
  by_cases hw : s.wavelength = some lam
  · rw [dp_hit c s lam th ph P (steerMatrix c lam P G) hw hP (hcoh hw)]
    obtain ⟨a1, a2, a3, a4, a5, a6, a7, a8⟩ := s
    simp only [Engine.mk.injEq] at *
    simp_all [patternOf]
  · exact dp_miss c s lam th ph P G hw hP hG

lemma dp_ok_inv (c : Ctx) (s s' : Engine) (lam th ph : ℚ) (pat : List Cplx)
    (h : directivity_pattern_tx c s lam th ph = .ok (s', pat)) :
    ∃ P SV, s.pos_sensor = some P ∧ s'.pos_sensor = some P ∧
      s'.dir_grid = s.dir_grid ∧ s'.wavelength = some lam ∧
      s'.steer_vecs = some SV ∧
      s'.src = some (srcVec c lam P (ref_dir c th ph)) ∧
      s'.pattern_tx = some pat ∧
      pat = conjT_mv SV (srcVec c lam P (ref_dir c th ph)) := by
  by_cases hw : s.wavelength = some lam
  · cases hps : s.pos_sensor with
    | none => simp [directivity_pattern_tx, hw, hps] at h
    | some P =>
      cases hss : s.steer_vecs with
      | none => simp [directivity_pattern_tx, hw, hps, hss] at h
      | some SV =>
        rw [dp_hit c s lam th ph P SV hw hps hss] at h
        refine ⟨P, SV, rfl, ?_⟩
        obtain ⟨h1, h2⟩ := by simpa using h
        subst h2
        simp [← h1, hps, hss, hw]
  · cases hps : s.pos_sensor with
    | none => simp [directivity_pattern_tx, hw, hps] at h
    | some P =>
      cases hdg : s.dir_grid with
      | none => simp [directivity_pattern_tx, hw, hps, hdg] at h
      | some G =>
        rw [dp_miss c s lam th ph P G hw hps hdg] at h
        refine ⟨P, steerMatrix c lam P G, rfl, ?_⟩
        obtain ⟨h1, h2⟩ := by simpa using h
        subst h2
        simp [← h1, hps, hdg, patternOf]

lemma runCount_steady (c : Ctx) (P G : List (List ℚ)) (lam : ℚ) :
    ∀ (angs : List (ℚ × ℚ)) (s : Engine) (k : ℕ),
    s.pos_sensor = some P → s.dir_grid = some G →
    s.wavelength = some lam →
    s.steer_vecs = some (steerMatrix c lam P G) →
    ∃ s', runCount c s (angs.map (fun a => (lam, a.1, a.2))) k = .ok (s', k) ∧
      s'.pos_sensor = some P ∧ s'.dir_grid = some G ∧
      s'.wavelength = some lam ∧
      s'.steer_vecs = some (steerMatrix c lam P G) := by
  intro angs
  induction angs with
  | nil => exact fun s k hP hG hw hS => ⟨s, rfl, hP, hG, hw, hS⟩
  | cons a rest ih =>
    intro s k hP hG hw hS
    have hcall := dp_ok c s lam a.1 a.2 P G hP hG (fun _ => hS)
    obtain ⟨s', hrun, hps⟩ := ih
      { s with dir_ref := some (ref_dir c a.1 a.2),
               steer_vecs := some (steerMatrix c lam P G),
               wavelength := some lam,
               src := some (srcVec c lam P (ref_dir c a.1 a.2)),
               pattern_tx :=
                 some (patternOf c lam P G (ref_dir c a.1 a.2)) } k
      (by simpa using hP) (by simpa using hG) (by simp) (by simp)
    refine ⟨s', ?_, hps⟩
    simp only [List.map_cons, runCount, hcall, hw]
    simpa [hw] using hrun

lemma scan_inner_spec (c : Ctx) (P G : List (List ℚ)) (lam el : ℚ) :
    ∀ (azs : List ℚ) (s : Engine),
    s.pos_sensor = some P → s.dir_grid = some G →
    (s.wavelength = some lam → s.steer_vecs = some (steerMatrix c lam P G)) →
    ∃ s', scan_inner c lam el s azs =
        .ok (s', azs.map (fun az => entryOf c lam P G el az)) ∧
      s'.pos_sensor = some P ∧ s'.dir_grid = some G ∧
      (s'.wavelength = some lam →
        s'.steer_vecs = some (steerMatrix c lam P G)) := by
  intro azs
  induction azs with
  | nil => exact fun s hP hG hcoh => ⟨s, rfl, hP, hG, hcoh⟩
  | cons az rest ih =>
    intro s hP hG hcoh
    have hcall := dp_ok c s lam (azel_to_thetaphi c az el).1
      (azel_to_thetaphi c az el).2 P G hP hG hcoh
    obtain ⟨s', hrun, hps⟩ := ih
      { s with dir_ref := some (ref_dir c (azel_to_thetaphi c az el).1
                 (azel_to_thetaphi c az el).2),
               steer_vecs := some (steerMatrix c lam P G),
               wavelength := some lam,
               src := some (srcVec c lam P (ref_dir c (azel_to_thetaphi c az el).1
                 (azel_to_thetaphi c az el).2)),
               pattern_tx := some (patternOf c lam P G
                 (ref_dir c (azel_to_thetaphi c az el).1
                   (azel_to_thetaphi c az el).2)) }
      (by simpa using hP) (by simpa using hG) (by simp)
    refine ⟨s', ?_, hps⟩
    simp only [scan_inner, hcall, hrun, scanEntry, entryOf, List.map_cons]
    simp [Option.getD]

lemma scanCommands_length (el_grid az_grid : List ℚ) :
    (scanCommands el_grid az_grid).length =
      el_grid.length * az_grid.length := by
  induction el_grid with
  | nil => simp [scanCommands]
  | cons e rest ih =>
    simp only [scanCommands, List.flatMap_cons, List.length_append,
      List.length_map, List.length_cons] at ih ⊢
    rw [ih]
    ring

lemma run_scan_spec (c : Ctx) (P G : List (List ℚ)) (lam : ℚ)
    (az_grid : List ℚ) :
    ∀ (els : List ℚ) (s : Engine),
    s.pos_sensor = some P → s.dir_grid = some G →
    (s.wavelength = some lam → s.steer_vecs = some (steerMatrix c lam P G)) →
    ∃ s', run_scan c lam az_grid s els =
        .ok (s', (scanCommands els az_grid).map
          (fun p => entryOf c lam P G p.1 p.2)) ∧
      s'.pos_sensor = some P ∧ s'.dir_grid = some G ∧
      (s'.wavelength = some lam →
        s'.steer_vecs = some (steerMatrix c lam P G)) := by
  intro els
  induction els with
  | nil => exact fun s hP hG hcoh => ⟨s, by simp [run_scan, scanCommands], hP, hG, hcoh⟩
  | cons el rest ih =>
    intro s hP hG hcoh
    obtain ⟨s1, hinner, hP1, hG1, hcoh1⟩ :=
      scan_inner_spec c P G lam el az_grid s hP hG hcoh
    obtain ⟨s2, houter, hps⟩ := ih s1 hP1 hG1 hcoh1
    refine ⟨s2, ?_, hps⟩
    simp only [run_scan, hinner, houter, scanCommands, List.flatMap_cons,
      List.map_append, List.map_map]
    rfl

/-- C1: for every engine with established sensor geometry (N positions) and
direction grid (M unit samples), and whose cache (if keyed to the requested
wavelength) holds the steering matrix of that geometry and grid,
`directivity_pattern_tx(wavelength, theta_ref, phi_ref)` returns an
M-length complex pattern whose entry m is the sum over all sensors n of
`conj(exp(-2πi/λ · pos_n · dir_m)) · exp(-2πi/λ · pos_n · ref)`, where
`ref` is obtained from `(theta_ref, phi_ref)` via `thetaphi_to_dir`. -/
theorem C1_directivity_pattern_formula (c : Ctx) (s : Engine)
    (P G : List (List ℚ)) (lam th ph : ℚ) (m : ℕ)
    (hP : s.pos_sensor = some P) (hG : s.dir_grid = some G) (hP0 : P ≠ [])
    (hcoh : s.wavelength = some lam →
      s.steer_vecs = some (steerMatrix c lam P G)) (hm : m < G.length) :
    ∃ s' pat, directivity_pattern_tx c s lam th ph = .ok (s', pat) ∧
      pat.length = G.length ∧
      pat.getD m c0 = csum (P.map (fun p =>
        cmul (cconj (c.cexp (-(2 * c.pi / lam) * dot p (G.getD m []))))
             (c.cexp (-(2 * c.pi / lam) * dot p (ref_dir c th ph))))) := by
  refine ⟨_, _, dp_ok c s lam th ph P G hP hG hcoh, ?_, ?_⟩
  · exact patternOf_length c lam P G _ hP0
  · exact patternOf_getD c lam P G _ m hP0 hm

/-- Witness for C1 at a concrete engine, wavelength and direction. -/
theorem C1_witness :
    ∃ s' pat, directivity_pattern_tx ctx1 eng1 1 0 0 = .ok (s', pat) ∧
      pat.length = G1.length ∧
      pat.getD 0 c0 = csum (P1.map (fun p =>
        cmul (cconj (ctx1.cexp (-(2 * ctx1.pi / 1) * dot p (G1.getD 0 []))))
             (ctx1.cexp (-(2 * ctx1.pi / 1) * dot p (ref_dir ctx1 0 0))))) :=
  C1_directivity_pattern_formula ctx1 eng1 P1 G1 1 0 0 0 (by decide)
    (by decide) (by decide) (fun h => absurd h (by decide)) (by decide)

/-- C2: starting from an engine with geometry and grid set and no cache,
a nonempty sequence of calls sharing one wavelength computes the steering
matrix exactly once (on the first call) and leaves it cached unchanged;
and a call on an engine whose cached wavelength differs (exact
inequality) rebuilds the matrix. -/
theorem C2_cache_rebuild_once (c : Ctx) (P G : List (List ℚ))
    (lam mu th2 ph2 : ℚ) (angs : List (ℚ × ℚ)) (s s2 : Engine)
    (hP : s.pos_sensor = some P) (hG : s.dir_grid = some G)
    (hw : s.wavelength = none) (hne : angs ≠ [])
    (hP2 : s2.pos_sensor = some P) (hG2 : s2.dir_grid = some G)
    (hw2 : s2.wavelength = some mu) (hmu : mu ≠ lam) :
    (∃ s1, runCount c s (angs.map (fun a => (lam, a.1, a.2))) 0 =
        .ok (s1, 1) ∧
      s1.steer_vecs = some (steerMatrix c lam P G) ∧
      s1.wavelength = some lam) ∧
    (∃ s3 pat, directivity_pattern_tx c s2 lam th2 ph2 = .ok (s3, pat) ∧
      s3.steer_vecs = some (steerMatrix c lam P G)) := by
  constructor
  · obtain ⟨a, rest, rfl⟩ : ∃ a rest, angs = a :: rest := by
      cases angs with
      | nil => exact absurd rfl hne
      | cons a r => exact ⟨a, r, rfl⟩
    have hcall := dp_ok c s lam a.1 a.2 P G hP hG
      (fun h => by rw [hw] at h; cases h)
    obtain ⟨s1, hrun, _, _, hw1, hS1⟩ := runCount_steady c P G lam rest
      { s with dir_ref := some (ref_dir c a.1 a.2),
               steer_vecs := some (steerMatrix c lam P G),
               wavelength := some lam,
               src := some (srcVec c lam P (ref_dir c a.1 a.2)),
               pattern_tx := some (patternOf c lam P G (ref_dir c a.1 a.2)) }
      1 (by simpa using hP) (by simpa using hG) (by simp) (by simp)
    refine ⟨s1, ?_, hS1, hw1⟩
    simp only [List.map_cons, runCount, hcall]
    simpa [hw] using hrun
  · have hcall2 := dp_ok c s2 lam th2 ph2 P G hP2 hG2
      (fun h => by rw [hw2] at h; exact absurd (Option.some.inj h) hmu)
    exact ⟨_, _, hcall2, by simp⟩

/-- A concrete engine with geometry `P1`, grid `G1` and a cache keyed to
wavelength 2. -/
def eng2 : Engine :=
  ⟨some P1, some 2, some 1, some G1, some (steerMatrix ctx1 2 P1 G1),
   none, none, none⟩

/-- Witness for C2: two same-wavelength calls rebuild once; a call against
a cache keyed to a different wavelength rebuilds. -/
theorem C2_witness :
    (∃ s1, runCount ctx1 eng1
        ([((0 : ℚ), (0 : ℚ)), (1, 1)].map (fun a => ((1 : ℚ), a.1, a.2))) 0 =
        .ok (s1, 1) ∧
      s1.steer_vecs = some (steerMatrix ctx1 1 P1 G1) ∧
      s1.wavelength = some 1) ∧
    (∃ s3 pat, directivity_pattern_tx ctx1 eng2 1 0 0 = .ok (s3, pat) ∧
      s3.steer_vecs = some (steerMatrix ctx1 1 P1 G1)) :=
  C2_cache_rebuild_once ctx1 P1 G1 1 2 0 0 [(0, 0), (1, 1)] eng1 eng2
    (by decide) (by decide) (by decide) (by decide) (by decide) (by decide)
    (by decide) (by decide)

/-- C3: two calls with identical arguments on one engine, with no geometry
change in between, return the identical pattern and leave identical
excitation-vector and pattern side outputs — the memoized cache never
changes the mathematical result. -/
theorem C3_deterministic_repeat (c : Ctx) (s s1 : Engine) (lam th ph : ℚ)
    (pat1 : List Cplx)
    (h1 : directivity_pattern_tx c s lam th ph = .ok (s1, pat1)) :
    ∃ s2, directivity_pattern_tx c s1 lam th ph = .ok (s2, pat1) ∧
      s2.src = s1.src ∧ s2.pattern_tx = s1.pattern_tx := by
  obtain ⟨P, SV, hsp, h1p, hdg, hwl, hsv, hsrc, hpt, hpat⟩ :=
    dp_ok_inv c s s1 lam th ph pat1 h1
  have hcall2 := dp_hit c s1 lam th ph P SV hwl h1p hsv
  refine ⟨Engine.mk s1.pos_sensor s1.wavelength s1.n_sensor s1.dir_grid
    s1.steer_vecs (some (ref_dir c th ph))
    (some (srcVec c lam P (ref_dir c th ph)))
    (some (conjT_mv SV (srcVec c lam P (ref_dir c th ph)))), ?_, ?_, ?_⟩
  · rw [hcall2, hpat]
  · simp [hsrc]
  · simp [hpt, hpat]

/-- The engine state reached by one call on `eng1` at wavelength 1 toward
(θ, φ) = (0, 0). -/
def eng1post : Engine :=
  { eng1 with dir_ref := some (ref_dir ctx1 0 0),
              steer_vecs := some (steerMatrix ctx1 1 P1 G1),
              wavelength := some 1,
              src := some (srcVec ctx1 1 P1 (ref_dir ctx1 0 0)),
              pattern_tx := some (patternOf ctx1 1 P1 G1 (ref_dir ctx1 0 0)) }

/-- Witness for C3 at a concrete first call. -/
theorem C3_witness :
    ∃ s2, directivity_pattern_tx ctx1 eng1post 1 0 0 =
        .ok (s2, patternOf ctx1 1 P1 G1 (ref_dir ctx1 0 0)) ∧
      s2.src = eng1post.src ∧ s2.pattern_tx = eng1post.pattern_tx :=
  C3_deterministic_repeat ctx1 eng1 eng1post 1 0 0
    (patternOf ctx1 1 P1 G1 (ref_dir ctx1 0 0))
    (dp_ok ctx1 eng1 1 0 0 P1 G1 (by decide) (by decide)
      (fun h => absurd h (by decide)))

/-- C4: `create_geom` fails with a shape error when some position vector
does not have exactly 3 components, and otherwise stores the positions
and their count. -/
theorem C4_create_geom_shape_check (pos bad : List (List ℚ)) (s t : Engine)
    (hgood : ∀ r ∈ pos, r.length = 3) (hbad : ∃ r ∈ bad, r.length ≠ 3) :
    (create_geom t bad).2 = some Err.shapeError ∧
    (create_geom s pos).2 = none ∧
    (create_geom s pos).1.pos_sensor = some pos ∧
    (create_geom s pos).1.n_sensor = some pos.length := by
  obtain ⟨r, hr, hr3⟩ := hbad
  have hb : ¬ (bad.all (fun r => r.length = 3) = true) := by
    simp only [List.all_eq_true, decide_eq_true_eq]
    exact fun hall => hr3 (hall r hr)
  have hg : pos.all (fun r => r.length = 3) = true := by
    simp only [List.all_eq_true, decide_eq_true_eq]
    exact hgood
  refine ⟨?_, ?_, ?_, ?_⟩ <;> simp [create_geom, hb, hg]

/-- Witness for C4: a malformed and a well-formed concrete geometry. -/
theorem C4_witness :
    (create_geom Engine.init [[1, 2]]).2 = some Err.shapeError ∧
    (create_geom Engine.init [[0, 0, 0], [1, 2, 3]]).2 = none ∧
    (create_geom Engine.init [[0, 0, 0], [1, 2, 3]]).1.pos_sensor =
      some [[0, 0, 0], [1, 2, 3]] ∧
    (create_geom Engine.init [[0, 0, 0], [1, 2, 3]]).1.n_sensor =
      some ([[(0 : ℚ), 0, 0], [1, 2, 3]]).length :=
  C4_create_geom_shape_check [[0, 0, 0], [1, 2, 3]] [[1, 2]] Engine.init
    Engine.init (by decide) (by decide)

/-- C5: requesting a pattern before geometry and direction grid are
established fails with a state error. -/
theorem C5_pattern_before_setup (c : Ctx) (s : Engine) (lam th ph : ℚ)
    (hw : s.wavelength = none)
    (h : s.pos_sensor = none ∨ s.dir_grid = none) :
    directivity_pattern_tx c s lam th ph = .error Err.stateError := by
  cases h with
  | inl h1 =>
    cases hdg : s.dir_grid with
    | none => simp [directivity_pattern_tx, hw, h1, hdg]
    | some G => simp [directivity_pattern_tx, hw, h1, hdg]
  | inr h2 =>
    cases hps : s.pos_sensor with
    | none => simp [directivity_pattern_tx, hw, h2, hps]
    | some P => simp [directivity_pattern_tx, hw, h2, hps]

/-- Witness for C5: a freshly constructed engine. -/
theorem C5_witness :
    directivity_pattern_tx ctx1 Engine.init 1 0 0 = .error Err.stateError :=
  C5_pattern_before_setup ctx1 Engine.init 1 0 0 (by decide) (Or.inl (by decide))

/-- C6 counterexample: at `v_min == v_max` the source does not fail with a
`ValueError`; it divides regardless (evaluated at v = 2, v_min = v_max = 1,
clipping on). -/
theorem C6_cex : scale_to_01 2 1 1 true ≠ Except.error Err.valueError := by
  simp [scale_to_01]

/-- C6 (amended): `scale_to_01` never guards the degenerate range: for
`v_min ≠ v_max` it returns the linear map, clamped elementwise to [0, 1]
when clipping is enabled (the default) and unclamped otherwise, and for
`v_min == v_max` it does not raise a `ValueError` — the division proceeds
silently. -/
theorem C6_amended (v a b : ℚ) (clip : Bool) (h : a ≠ b) :
    scale_to_01 v a b clip =
      .ok (if clip then min 1 (max 0 ((v - a) / (b - a)))
           else (v - a) / (b - a)) ∧
    (0 : ℚ) ≤ min 1 (max 0 ((v - a) / (b - a))) ∧
    min 1 (max 0 ((v - a) / (b - a))) ≤ 1 ∧
    scale_to_01 v a a clip ≠ Except.error Err.valueError := by
  refine ⟨rfl, le_min (by norm_num) (le_max_left 0 _), min_le_left _ _,
    by simp [scale_to_01]⟩

/-- Witness for the amended C6 at concrete bounds. -/
theorem C6_amended_witness :
    scale_to_01 3 0 2 true =
      .ok (if true then min 1 (max 0 ((3 - 0) / (2 - 0)))
           else (3 - 0) / (2 - 0)) ∧
    (0 : ℚ) ≤ min 1 (max 0 ((3 - 0) / (2 - 0))) ∧
    min 1 (max 0 ((3 - 0) / (2 - 0))) ≤ (1 : ℚ) ∧
    scale_to_01 3 0 0 true ≠ Except.error Err.valueError :=
  C6_amended 3 0 2 true (by norm_num)

/-- C7 counterexample: after a successful pattern call at wavelength 1, a
`create_geom` replacing the geometry by `P2` does NOT invalidate the
steering-vector cache — the next call at the same wavelength reuses the
matrix built from the old positions `P1` instead of rebuilding from `P2`. -/
theorem C7_cex :
    ∃ s3 p3,
      directivity_pattern_tx ctx1 (create_geom eng1post P2).1 1 0 0 =
        .ok (s3, p3) ∧
      s3.steer_vecs = some (steerMatrix ctx1 1 P1 G1) ∧
      s3.steer_vecs ≠ some (steerMatrix ctx1 1 P2 G1) := by
  have hg : P2.all (fun r => r.length = 3) = true := by decide
  have hcall := dp_hit ctx1 (create_geom eng1post P2).1 1 0 0 P2
    (steerMatrix ctx1 1 P1 G1)
    (by simp [create_geom, hg, eng1post])
    (by simp [create_geom, hg])
    (by simp [create_geom, hg, eng1post])
  refine ⟨_, _, hcall, by simp [create_geom, hg, eng1post], ?_⟩
  simp only [create_geom, hg, if_true, eng1post, ne_eq, Option.some.injEq]
  simp only [steerMatrix, P1, P2, G1, ctx1, dot]
  intro hEq
  simp only [List.zipWith, List.sum_cons, List.sum_nil, List.map,
    List.cons.injEq, Cplx.mk.injEq, and_true] at hEq
  norm_num at hEq

/-- C7 (amended): a second `create_geom` replaces the prior geometry and
sensor count but does NOT invalidate the steering-vector cache: the next
`directivity_pattern_tx` whose wavelength is exactly equal to the cached
one reuses the stale matrix built from the old positions; only a differing
wavelength triggers a rebuild. -/
theorem C7_amended (c : Ctx) (s : Engine) (Pn : List (List ℚ))
    (SV : List (List Cplx)) (lam th ph : ℚ)
    (hw : s.wavelength = some lam) (hS : s.steer_vecs = some SV)
    (hPn : ∀ r ∈ Pn, r.length = 3) :
    (create_geom s Pn).2 = none ∧
    (create_geom s Pn).1.pos_sensor = some Pn ∧
    (create_geom s Pn).1.steer_vecs = some SV ∧
    (create_geom s Pn).1.wavelength = some lam ∧
    ∃ s3 pat, directivity_pattern_tx c (create_geom s Pn).1 lam th ph =
        .ok (s3, pat) ∧ s3.steer_vecs = some SV := by
  have hg : Pn.all (fun r => r.length = 3) = true := by
    simp only [List.all_eq_true, decide_eq_true_eq]
    exact hPn
  have hcall := dp_hit c (create_geom s Pn).1 lam th ph Pn SV
    (by simp [create_geom, hg, hw]) (by simp [create_geom, hg])
    (by simp [create_geom, hg, hS])
  exact ⟨by simp [create_geom, hg], by simp [create_geom, hg],
    by simp [create_geom, hg, hS], by simp [create_geom, hg, hw],
    _, _, hcall, by simp [create_geom, hg, hS]⟩

/-- Witness for the amended C7: concrete stale-cache reuse. -/
theorem C7_amended_witness :
    (create_geom eng1post P2).2 = none ∧
    (create_geom eng1post P2).1.pos_sensor = some P2 ∧
    (create_geom eng1post P2).1.steer_vecs =
      some (steerMatrix ctx1 1 P1 G1) ∧
    (create_geom eng1post P2).1.wavelength = some 1 ∧
    ∃ s3 pat, directivity_pattern_tx ctx1 (create_geom eng1post P2).1 1 0 0 =
        .ok (s3, pat) ∧ s3.steer_vecs = some (steerMatrix ctx1 1 P1 G1) :=
  C7_amended ctx1 eng1post P2 (steerMatrix ctx1 1 P1 G1) 1 0 0 rfl rfl
    (by decide)

/-- C8: with clipping enabled the normalizer is idempotent — renormalizing
an already-normalized array with bounds (0, 1) returns it unchanged. -/
theorem C8_scale_idempotent (x a b : ℚ) (h : a < b) :
    ∃ y, scale_to_01 x a b true = .ok y ∧ scale_to_01 y 0 1 true = .ok y := by
  refine ⟨min 1 (max 0 ((x - a) / (b - a))), rfl, ?_⟩
  have h0 : (0 : ℚ) ≤ min 1 (max 0 ((x - a) / (b - a))) :=
    le_min (by norm_num) (le_max_left 0 _)
  have h1 : min 1 (max 0 ((x - a) / (b - a))) ≤ 1 := min_le_left _ _
  simp [scale_to_01, max_eq_right h0, min_eq_right h1]

/-- Witness for C8 at concrete input and bounds. -/
theorem C8_witness :
    ∃ y, scale_to_01 5 0 2 true = .ok y ∧ scale_to_01 y 0 1 true = .ok y :=
  C8_scale_idempotent 5 0 2 (by norm_num)

/-- C9: a sweep over ordered elevation and azimuth grids produces exactly
`len(el_grid) · len(az_grid)` entries, in row-major order (elevation outer,
azimuth inner), and the k-th collected (pattern, excitation) entry equals
the result of a direct single engine call with the k-th command. -/
theorem C9_scan_row_major (c : Ctx) (s : Engine) (P G : List (List ℚ))
    (lam : ℚ) (el_grid az_grid : List ℚ) (k : ℕ)
    (hP : s.pos_sensor = some P) (hG : s.dir_grid = some G)
    (hcoh : s.wavelength = some lam →
      s.steer_vecs = some (steerMatrix c lam P G))
    (hk : k < el_grid.length * az_grid.length) :
    ∃ s' entries, run_scan c lam az_grid s el_grid = .ok (s', entries) ∧
      entries.length = el_grid.length * az_grid.length ∧
      entries = (scanCommands el_grid az_grid).map
        (fun p => entryOf c lam P G p.1 p.2) ∧
      ∃ sd, directivity_pattern_tx c s lam
          (azel_to_thetaphi c
            ((scanCommands el_grid az_grid).getD k (0, 0)).2
            ((scanCommands el_grid az_grid).getD k (0, 0)).1).1
          (azel_to_thetaphi c
            ((scanCommands el_grid az_grid).getD k (0, 0)).2
            ((scanCommands el_grid az_grid).getD k (0, 0)).1).2 =
        .ok (sd, (entries.getD k ([], [])).1) ∧
        sd.src = some (entries.getD k ([], [])).2 := by
  obtain ⟨s', hrun, _⟩ := run_scan_spec c P G lam az_grid el_grid s hP hG hcoh
  refine ⟨s', _, hrun, ?_, rfl, ?_⟩
  · simp [scanCommands_length]
  · have hklen : k < (scanCommands el_grid az_grid).length := by
      rw [scanCommands_length]
      exact hk
    rw [getD_map_of_lt (fun p => entryOf c lam P G p.1 p.2) _ k (0, 0) _ hklen]
    have hcall := dp_ok c s lam
      (azel_to_thetaphi c ((scanCommands el_grid az_grid).getD k (0, 0)).2
        ((scanCommands el_grid az_grid).getD k (0, 0)).1).1
      (azel_to_thetaphi c ((scanCommands el_grid az_grid).getD k (0, 0)).2
        ((scanCommands el_grid az_grid).getD k (0, 0)).1).2 P G hP hG hcoh
    simp only [entryOf]
    exact ⟨_, hcall, by simp⟩

/-- Witness for C9: a 2×1 sweep on a concrete engine. -/
theorem C9_witness :
    ∃ s' entries, run_scan ctx1 1 [2] eng1 [0, 1] = .ok (s', entries) ∧
      entries.length = [(0 : ℚ), 1].length * [(2 : ℚ)].length ∧
      entries = (scanCommands [0, 1] [2]).map
        (fun p => entryOf ctx1 1 P1 G1 p.1 p.2) ∧
      ∃ sd, directivity_pattern_tx ctx1 eng1 1
          (azel_to_thetaphi ctx1 ((scanCommands [0, 1] [2]).getD 1 (0, 0)).2
            ((scanCommands [0, 1] [2]).getD 1 (0, 0)).1).1
          (azel_to_thetaphi ctx1 ((scanCommands [0, 1] [2]).getD 1 (0, 0)).2
            ((scanCommands [0, 1] [2]).getD 1 (0, 0)).1).2 =
        .ok (sd, (entries.getD 1 ([], [])).1) ∧
        sd.src = some (entries.getD 1 ([], [])).2 :=
  C9_scan_row_major ctx1 eng1 P1 G1 1 [0, 1] [2] 1 (by decide) (by decide)
    (fun h => absurd h (by decide)) (by decide)

/-- C10: a `create_geom` that fails its shape check is not atomic — the
invalid positions have already been stored as the sensor geometry before
the check runs, while the sensor count keeps its previous value. -/
theorem C10_failed_create_geom_not_atomic (s : Engine)
    (bad : List (List ℚ)) (hbad : ∃ r ∈ bad, r.length ≠ 3) :
    (create_geom s bad).2 = some Err.shapeError ∧
    (create_geom s bad).1.pos_sensor = some bad ∧
    (create_geom s bad).1.n_sensor = s.n_sensor := by
  obtain ⟨r, hr, hr3⟩ := hbad
  have hb : ¬ (bad.all (fun r => r.length = 3) = true) := by
    simp only [List.all_eq_true, decide_eq_true_eq]
    exact fun hall => hr3 (hall r hr)
  refine ⟨?_, ?_, ?_⟩ <;> simp [create_geom, hb]

/-- Witness for C10: a failed geometry replacement on an engine that had
a sensor count. -/
theorem C10_witness :
    (create_geom (create_geom Engine.init P1).1 [[1, 2]]).2 =
      some Err.shapeError ∧
    (create_geom (create_geom Engine.init P1).1 [[1, 2]]).1.pos_sensor =
      some [[1, 2]] ∧
    (create_geom (create_geom Engine.init P1).1 [[1, 2]]).1.n_sensor =
      (create_geom Engine.init P1).1.n_sensor :=
  C10_failed_create_geom_not_atomic (create_geom Engine.init P1).1 [[1, 2]]
    (by decide)
